import Mathlib

/-!
Verification of `BLI::SmallVector<T, N>` from
`src/source/blender/blenlib/BLI_small_vector.hpp`.

The container stores up to `N` elements in an inline buffer embedded in the
object (`m_small_buffer`), and migrates to a heap allocation once more space
is needed.  The C++ state consists of the fields

  * `m_elements`  : pointer to the active storage (inline buffer, a heap
                    region, or `nullptr` after the storage was stolen by a
                    move),
  * `m_size`      : number of live elements the container believes it has,
  * `m_capacity`  : number of slots available at `m_elements`.

The shallow embedding below represents the pointer `m_elements` by a `Mode`
tag (which of the three pointer states it is in) together with the list of
live, constructed elements stored at slots `[0, elems.length)`.  `m_size`
and `m_capacity` are kept as separate fields exactly as in the source:
in particular `m_size` is NOT forced to equal `elems.length`, because
`steal_from_other` nulls `m_elements` without resetting `m_size`, so the two
can genuinely disagree in moved-from states.  Well-formed (non-moved-from)
states are characterised by `WF`.

`BLI_assert` is modelled as a fatal assertion (the spec treats the assertion
primitive as an abort-on-false collaborator); reaching undefined behaviour
(dereferencing a null or dangling pointer, using the result of an unchecked
failed allocation) is modelled by a distinct `Res.ub` outcome carrying the
field state of the object at the point where the undefined behaviour occurs.
-/

set_option autoImplicit false

namespace BLI

/-- The three states of the `m_elements` pointer:
`small` = `m_elements == this->small_buffer()` (inline storage),
`heap` = `m_elements` points at a `malloc`ed region,
`nulled` = `m_elements == nullptr` (storage was stolen by
`steal_from_other`, which ends with `other.m_elements = nullptr;`). -/
inductive Mode where
  | small
  | heap
  | nulled
deriving DecidableEq

/-- Shallow embedding of the state of a `BLI::SmallVector<T, N>` value.
`elems` is the list of live constructed elements at slots
`[0, elems.length)` of the active storage; `m_size` and `m_capacity` mirror
the C++ fields of the same names. -/
structure SmallVector (α : Type) (N : Nat) where
  mode : Mode
  elems : List α
  m_size : Nat
  m_capacity : Nat
deriving DecidableEq

/-- Outcome of an operation on the container: normal completion,
a failed `BLI_assert` (fatal abort), or undefined behaviour; `ub` carries
the object's field state at the point the undefined behaviour is reached. -/
inductive Res (σ : Type) where
  | ok (s : σ)
  | assertFail
  | ub (s : σ)
deriving DecidableEq

/-- The default constructor: `m_elements = small_buffer(); m_capacity = N;
m_size = 0;` — empty, inline mode, capacity `N`. -/
def mkSmallVector (α : Type) (N : Nat) : SmallVector α N :=
  ⟨Mode.small, [], 0, N⟩

namespace SmallVector

variable {α : Type} {N : Nat}

/-- Well-formed (not moved-from) states: the element pointer is non-null,
`m_size` counts exactly the live elements, and `N ≤ m_capacity` and
`m_size ≤ m_capacity` hold. -/
def WF (v : SmallVector α N) : Prop :=
  v.mode ≠ Mode.nulled ∧ v.m_size = v.elems.length ∧
    N ≤ v.m_capacity ∧ v.m_size ≤ v.m_capacity

instance decWF (v : SmallVector α N) : Decidable (v.WF) :=
  decidable_of_iff
    (v.mode ≠ Mode.nulled ∧ v.m_size = v.elems.length ∧
      N ≤ v.m_capacity ∧ v.m_size ≤ v.m_capacity) Iff.rfl

/-- The capacity invariant of the spec: `capacity >= max(N, length)`. -/
def Inv (v : SmallVector α N) : Prop :=
  N ≤ v.m_capacity ∧ v.m_size ≤ v.m_capacity

instance decInv (v : SmallVector α N) : Decidable (v.Inv) :=
  decidable_of_iff (N ≤ v.m_capacity ∧ v.m_size ≤ v.m_capacity) Iff.rfl

/-- `grow(uint min_capacity)` (allocation assumed to succeed; the failing
allocation path is modelled separately by `grow_checked`): returns at once
when `m_capacity >= min_capacity`; otherwise sets `m_capacity =
min_capacity`, `malloc`s a new array, relocates every live element into it
in index order, destructs the old slots, frees the old region if it was not
the inline buffer, and adopts the new array (so the mode becomes `heap`).
The list of live elements is unchanged by the relocation. -/
def grow (v : SmallVector α N) (min_capacity : Nat) : SmallVector α N :=
  if min_capacity ≤ v.m_capacity then v
  else { v with m_capacity := min_capacity, mode := Mode.heap }

/-- `reserve(uint size)` just forwards to `grow(size)`. -/
def reserve (v : SmallVector α N) (s : Nat) : SmallVector α N :=
  v.grow s

/-- `ensure_space_for_one()`: when `m_size >= m_capacity`, grows to
`std::max(m_capacity * 2, 1)`. -/
def ensure_space_for_one (v : SmallVector α N) : SmallVector α N :=
  if v.m_capacity ≤ v.m_size then v.grow (max (v.m_capacity * 2) 1) else v

/-- `append(value)`: ensures one free slot, constructs the new element at
`this->end()` (slot `m_size`), then increments `m_size`. -/
def append (v : SmallVector α N) (x : α) : SmallVector α N :=
  let w := v.ensure_space_for_one
  { w with elems := w.elems ++ [x], m_size := w.m_size + 1 }

/-- Repeated `append`, in order: models a sequence of `append` calls and is
also the loop body of the sized and initializer-list constructors. -/
def appendAll (v : SmallVector α N) (xs : List α) : SmallVector α N :=
  xs.foldl append v

/-- `extend(other)`: appends every live element of `other`, in order. -/
def extend (v other : SmallVector α N) : SmallVector α N :=
  v.appendAll other.elems

/-- `fill(value)`: assigns `value` over every live slot `[0, m_size)`;
in a well-formed state those are exactly the elements of `elems`. -/
def fill (v : SmallVector α N) (x : α) : SmallVector α N :=
  { v with elems := v.elems.map (fun _ => x) }

/-- `size()` returns `m_size`. -/
def size (v : SmallVector α N) : Nat :=
  v.m_size

/-- `SmallVector(uint size)`: default-constructs, then `reserve(size)`,
then appends `size` default-constructed values. -/
def mkSized (α : Type) [Inhabited α] (N k : Nat) : SmallVector α N :=
  ((mkSmallVector α N).reserve k).appendAll (List.replicate k default)

/-- `SmallVector(std::initializer_list<T> values)`: default-constructs,
then `reserve(values.size())`, then appends each value in order. -/
def mkFromList (α : Type) (N : Nat) (values : List α) : SmallVector α N :=
  ((mkSmallVector α N).reserve values.length).appendAll values

/-- `operator[](index)`: `BLI_assert(is_index_in_range(index))` (modelled
as `none` on failure, since the assertion aborts), then reads
`m_elements[index]`; in a well-formed state slot `index < m_size` holds a
live element. -/
def opIndex (v : SmallVector α N) (i : Nat) : Option α :=
  if i < v.m_size then v.elems[i]? else none

/-- `remove_last()`: `BLI_assert(!empty())`, then destructs the element at
slot `m_size - 1` and decrements `m_size`. -/
def remove_last (v : SmallVector α N) : Res (SmallVector α N) :=
  if v.m_size = 0 then Res.assertFail
  else Res.ok { v with elems := v.elems.dropLast, m_size := v.m_size - 1 }

/-- `remove_and_reorder(index)`: `BLI_assert(is_index_in_range(index))`;
when `index < m_size - 1`, move-assigns the last live element
(`*(end() - 1)`, i.e. slot `m_size - 1`) into slot `index`; then destructs
slot `m_size - 1` and decrements `m_size`. -/
def remove_and_reorder (v : SmallVector α N) (index : Nat) :
    Res (SmallVector α N) :=
  if index < v.m_size then
    let moved :=
      if index < v.m_size - 1 then
        match v.elems.getLast? with
        | some last => v.elems.set index last
        | none => v.elems
      else v.elems
    Res.ok { v with elems := moved.dropLast, m_size := v.m_size - 1 }
  else Res.assertFail

/-- `copy_from_other(other)`: picks the own inline buffer when `other` is
small, otherwise `malloc`s a region of `other.m_capacity` slots; then
copy-constructs `other`'s live elements in order and copies the `m_size`
and `m_capacity` fields.  (A nulled `other` is not small, so it takes the
heap branch.) -/
def copy_from_other (other : SmallVector α N) : SmallVector α N :=
  ⟨if other.mode = Mode.small then Mode.small else Mode.heap,
    other.elems, other.m_size, other.m_capacity⟩

/-- `steal_from_other(other)`: if `other.is_small()`, move-constructs
`other`'s `m_size` elements into this object's own inline buffer and points
`m_elements` at it; otherwise adopts `other.m_elements` directly.  Copies
`m_capacity` and `m_size` from `other`, then sets
`other.m_elements = nullptr`.  Note: `other.m_size` and `other.m_capacity`
are NOT reset, and `other`'s own elements are never destructed.
Returns (the stealing object's new state, `other`'s state afterwards). -/
def steal_from_other (other : SmallVector α N) :
    SmallVector α N × SmallVector α N :=
  (⟨if other.mode = Mode.small then Mode.small else other.mode,
      other.elems, other.m_size, other.m_capacity⟩,
    { other with mode := Mode.nulled, elems := [] })

/-- Number of element move-constructions performed by `steal_from_other`:
`other.m_size` in the inline branch (the `std::uninitialized_copy` over
`other.begin() .. other.end()` with move iterators), none in the
pointer-adoption branch. -/
def steal_construction_count (other : SmallVector α N) : Nat :=
  if other.mode = Mode.small then other.m_size else 0

/-- Number of element destructions performed by `steal_from_other`: the
function contains no destructor call at all — in particular the moved-from
elements left behind in `other`'s storage are not destructed. -/
def steal_destruction_count (_other : SmallVector α N) : Nat :=
  0

/-- `destruct_elements_and_free_memory()`:
`destruct_elements_but_keep_memory()` first runs the loop
`for (i < m_size) destruct_element(i)` with NO null check on `m_elements`
— when the storage was previously stolen (`m_elements == nullptr`) and
`m_size != 0`, this destructs through a null pointer (undefined
behaviour).  Afterwards the heap region is freed (that part alone is
guarded by the comment "Can be nullptr when previously stolen").  The C++
fields are not modified. -/
def destruct_elements_and_free_memory (v : SmallVector α N) :
    Res (SmallVector α N) :=
  if v.mode = Mode.nulled ∧ v.m_size ≠ 0 then Res.ub v
  else Res.ok { v with elems := [] }

/-- Number of element destructions performed by
`destruct_elements_and_free_memory` (when it does not hit undefined
behaviour): the loop always runs over all of `[0, m_size)`. -/
def destruct_free_dest_count (v : SmallVector α N) : Nat :=
  v.m_size

/-- `~SmallVector()`: `if (m_elements != nullptr)` then
`destruct_elements_and_free_memory()`.  Number of element destructions
performed: `0` for a moved-from (nulled) object, `m_size` otherwise. -/
def dtor_dest_count (v : SmallVector α N) : Nat :=
  if v.mode = Mode.nulled then 0 else v.m_size

/-- Whether `~SmallVector()` frees a heap region: only when `m_elements`
is non-null and not the inline buffer. -/
def dtor_frees_heap (v : SmallVector α N) : Bool :=
  v.mode = Mode.heap

/-- Copy assignment `operator=(const SmallVector &other)` for distinct
objects (`this != &other`): destructs and frees the current storage, then
`copy_from_other(other)`. -/
def copy_assign (this other : SmallVector α N) : Res (SmallVector α N) :=
  match this.destruct_elements_and_free_memory with
  | Res.ok _ => Res.ok (copy_from_other other)
  | Res.assertFail => Res.assertFail
  | Res.ub s => Res.ub s

/-- Copy assignment in the self-assignment case: the guard
`if (this == &other) return *this;` returns immediately, leaving the
object unchanged. -/
def copy_assign_self (v : SmallVector α N) : SmallVector α N :=
  v

/-- Move assignment `operator=(SmallVector &&other)` for distinct objects:
destructs and frees the current storage (no self-aliasing guard exists),
then `steal_from_other(other)`.  Returns (this, other) afterwards. -/
def move_assign (this other : SmallVector α N) :
    Res (SmallVector α N × SmallVector α N) :=
  match this.destruct_elements_and_free_memory with
  | Res.ok _ => Res.ok (steal_from_other other)
  | Res.assertFail => Res.assertFail
  | Res.ub s => Res.ub (s, other)

/-- Move assignment when `other` aliases `this` (`a = std::move(a)`); the
operator has no self check.  Step 1: `destruct_elements_and_free_memory()`
destructs all `m_size` live elements and frees the heap region if any
(fields unchanged).  Step 2: `steal_from_other(*this)` reads the object's
own fields back into itself — the `is_small` branch re-copies the (already
destructed) inline slots onto themselves, the heap branch re-adopts the
(already freed) pointer — and finally executes
`other.m_elements = nullptr;`, which, `other` being `this`, nulls the
object's own element pointer.  Net effect: mode `nulled`, no live
elements, `m_size` and `m_capacity` unchanged. -/
def move_assign_self (v : SmallVector α N) : Res (SmallVector α N) :=
  match v.destruct_elements_and_free_memory with
  | Res.ok v1 =>
      Res.ok { v1 with mode := Mode.nulled, elems := [] }
  | Res.assertFail => Res.assertFail
  | Res.ub s => Res.ub s

/-- `grow(min_capacity)` with the allocation outcome made explicit
(`allocOk = false` means `std::malloc` returned `nullptr`).  The source
sets `m_capacity = min_capacity` BEFORE the `malloc` call and never checks
the returned pointer: on failure with live elements the
`std::uninitialized_copy` dereferences the null pointer (undefined
behaviour, reached with `m_capacity` already updated); on failure with no
live elements the copy and destruct loops are empty and the null pointer
is adopted as `m_elements`. -/
def grow_checked (allocOk : Bool) (v : SmallVector α N) (min_capacity : Nat) :
    Res (SmallVector α N) :=
  if min_capacity ≤ v.m_capacity then Res.ok v
  else
    let v1 := { v with m_capacity := min_capacity }
    if allocOk then Res.ok { v1 with mode := Mode.heap }
    else if v1.m_size = 0 then Res.ok { v1 with mode := Mode.nulled }
    else Res.ub v1

/-- Number of element move-constructions performed by an actual (non
no-op) `grow`: one per live element, relocated into the new array; the
same number of destructions of the old slots follows. -/
def grow_relocation_count (v : SmallVector α N) (min_capacity : Nat) : Nat :=
  if min_capacity ≤ v.m_capacity then 0 else v.m_size

/-- Number of element constructions performed by `append`: the relocations
of a triggered growth, plus the construction of the new element. -/
def append_construction_count (v : SmallVector α N) : Nat :=
  (if v.m_capacity ≤ v.m_size then
      v.grow_relocation_count (max (v.m_capacity * 2) 1)
    else 0) + 1

/-- Number of element destructions performed by `append`: only the old
slots destructed by a triggered growth. -/
def append_destruction_count (v : SmallVector α N) : Nat :=
  if v.m_capacity ≤ v.m_size then
    v.grow_relocation_count (max (v.m_capacity * 2) 1)
  else 0

/-! Basic facts about the operations. -/

@[simp]
theorem grow_elems (v : SmallVector α N) (mc : Nat) :
    (v.grow mc).elems = v.elems := by
  unfold grow
  split <;> rfl

@[simp]
theorem grow_m_size (v : SmallVector α N) (mc : Nat) :
    (v.grow mc).m_size = v.m_size := by
  unfold grow
  split <;> rfl

theorem grow_capacity_le (v : SmallVector α N) (mc : Nat) :
    v.m_capacity ≤ (v.grow mc).m_capacity := by
  unfold grow
  split
  · exact Nat.le_refl _
  · next h => exact Nat.le_of_lt (Nat.lt_of_not_le h)

@[simp]
theorem ensure_elems (v : SmallVector α N) :
    v.ensure_space_for_one.elems = v.elems := by
  unfold ensure_space_for_one
  split <;> simp

@[simp]
theorem ensure_m_size (v : SmallVector α N) :
    v.ensure_space_for_one.m_size = v.m_size := by
  unfold ensure_space_for_one
  split <;> simp

theorem ensure_capacity_le (v : SmallVector α N) :
    v.m_capacity ≤ v.ensure_space_for_one.m_capacity := by
  unfold ensure_space_for_one
  split
  · exact grow_capacity_le v _
  · exact Nat.le_refl _

@[simp]
theorem append_elems (v : SmallVector α N) (x : α) :
    (v.append x).elems = v.elems ++ [x] := by
  simp [append]

@[simp]
theorem append_m_size (v : SmallVector α N) (x : α) :
    (v.append x).m_size = v.m_size + 1 := by
  simp [append]

theorem append_capacity_le (v : SmallVector α N) (x : α) :
    v.m_capacity ≤ (v.append x).m_capacity := by
  simp only [append]
  exact ensure_capacity_le v

@[simp]
theorem appendAll_nil (v : SmallVector α N) :
    v.appendAll [] = v :=
  rfl

@[simp]
theorem appendAll_cons (v : SmallVector α N) (x : α) (xs : List α) :
    v.appendAll (x :: xs) = (v.append x).appendAll xs :=
  rfl

theorem appendAll_elems (v : SmallVector α N) (xs : List α) :
    (v.appendAll xs).elems = v.elems ++ xs := by
  induction xs generalizing v with
  | nil => simp
  | cons x xs ih => simp [ih]

theorem appendAll_m_size (v : SmallVector α N) (xs : List α) :
    (v.appendAll xs).m_size = v.m_size + xs.length := by
  induction xs generalizing v with
  | nil => simp
  | cons x xs ih => simp [ih]; omega

theorem appendAll_capacity_le (v : SmallVector α N) (xs : List α) :
    v.m_capacity ≤ (v.appendAll xs).m_capacity := by
  induction xs generalizing v with
  | nil => simp
  | cons x xs ih =>
    calc v.m_capacity ≤ (v.append x).m_capacity := append_capacity_le v x
    _ ≤ ((v.append x).appendAll xs).m_capacity := ih (v.append x)

theorem grow_of_le (v : SmallVector α N) (mc : Nat) (h : mc ≤ v.m_capacity) :
    v.grow mc = v := by
  unfold grow
  exact if_pos h

theorem grow_capacity_of_gt (v : SmallVector α N) (mc : Nat)
    (h : v.m_capacity < mc) : (v.grow mc).m_capacity = mc := by
  unfold grow
  rw [if_neg (by omega)]

theorem grow_mode_heap (v : SmallVector α N) (mc : Nat)
    (h : v.mode = Mode.heap) : (v.grow mc).mode = Mode.heap := by
  unfold grow
  split
  · exact h
  · rfl

theorem ensure_of_lt (v : SmallVector α N) (h : v.m_size < v.m_capacity) :
    v.ensure_space_for_one = v := by
  unfold ensure_space_for_one
  exact if_neg (by omega)

theorem ensure_full_capacity (v : SmallVector α N)
    (h : v.m_capacity ≤ v.m_size) :
    v.ensure_space_for_one.m_capacity = max (v.m_capacity * 2) 1 := by
  unfold ensure_space_for_one
  rw [if_pos h]
  exact grow_capacity_of_gt v _ (by omega)

theorem ensure_full_mode (v : SmallVector α N)
    (h : v.m_capacity ≤ v.m_size) :
    v.ensure_space_for_one.mode = Mode.heap := by
  unfold ensure_space_for_one
  rw [if_pos h]
  unfold grow
  rw [if_neg (by omega)]

theorem ensure_mode_heap (v : SmallVector α N) (h : v.mode = Mode.heap) :
    v.ensure_space_for_one.mode = Mode.heap := by
  unfold ensure_space_for_one
  split
  · exact grow_mode_heap v _ h
  · exact h

theorem append_of_lt (v : SmallVector α N) (x : α)
    (h : v.m_size < v.m_capacity) :
    v.append x = { v with elems := v.elems ++ [x], m_size := v.m_size + 1 } := by
  unfold append
  rw [ensure_of_lt v h]

theorem append_mode_full (v : SmallVector α N) (x : α)
    (h : v.m_capacity ≤ v.m_size) : (v.append x).mode = Mode.heap := by
  show v.ensure_space_for_one.mode = Mode.heap
  exact ensure_full_mode v h

theorem append_mode_heap (v : SmallVector α N) (x : α)
    (h : v.mode = Mode.heap) : (v.append x).mode = Mode.heap := by
  show v.ensure_space_for_one.mode = Mode.heap
  exact ensure_mode_heap v h

theorem appendAll_mode_heap (v : SmallVector α N) (xs : List α)
    (h : v.mode = Mode.heap) : (v.appendAll xs).mode = Mode.heap := by
  induction xs generalizing v with
  | nil => exact h
  | cons x xs ih =>
    rw [appendAll_cons]
    exact ih (v.append x) (append_mode_heap v x h)

theorem appendAll_capacity_of_le (v : SmallVector α N) (xs : List α)
    (h : v.m_size + xs.length ≤ v.m_capacity) :
    (v.appendAll xs).m_capacity = v.m_capacity := by
  induction xs generalizing v with
  | nil => rfl
  | cons x xs ih =>
    simp only [List.length_cons] at h
    rw [appendAll_cons, append_of_lt v x (by omega)]
    exact ih { v with elems := v.elems ++ [x], m_size := v.m_size + 1 }
      (by show v.m_size + 1 + xs.length ≤ v.m_capacity; omega)

theorem appendAll_mode_of_le (v : SmallVector α N) (xs : List α)
    (h : v.m_size + xs.length ≤ v.m_capacity) :
    (v.appendAll xs).mode = v.mode := by
  induction xs generalizing v with
  | nil => rfl
  | cons x xs ih =>
    simp only [List.length_cons] at h
    rw [appendAll_cons, append_of_lt v x (by omega)]
    exact ih { v with elems := v.elems ++ [x], m_size := v.m_size + 1 }
      (by show v.m_size + 1 + xs.length ≤ v.m_capacity; omega)

theorem appendAll_append (v : SmallVector α N) (xs ys : List α) :
    v.appendAll (xs ++ ys) = (v.appendAll xs).appendAll ys := by
  unfold appendAll
  exact List.foldl_append _ _ _ _

end SmallVector

open SmallVector in
/-- C1: for every sequence of `k` `append` calls on a default-constructed
container, `size()` afterwards equals `k`, and element access at each
position `i < k` returns the `i`-th appended value, in order. -/
theorem C1_append_readback (α : Type) (N : Nat) (xs : List α) (i : Nat)
    (h : i < xs.length) :
    ((mkSmallVector α N).appendAll xs).size = xs.length ∧
    ((mkSmallVector α N).appendAll xs).opIndex i = some (xs.get ⟨i, h⟩) := by
  have hs : ((mkSmallVector α N).appendAll xs).m_size = xs.length := by
    rw [appendAll_m_size]
    simp [mkSmallVector]
  constructor
  · exact hs
  · rw [SmallVector.opIndex, hs, if_pos h, appendAll_elems]
    show ([] ++ xs)[i]? = _
    rw [List.nil_append, List.getElem?_eq_getElem h]
    rfl

/-- Witness for C1 at a concrete input. -/
theorem C1_append_readback_witness :
    ((mkSmallVector Nat 4).appendAll [10, 20, 30]).size = 3 ∧
    ((mkSmallVector Nat 4).appendAll [10, 20, 30]).opIndex 1 = some 20 :=
  C1_append_readback Nat 4 [10, 20, 30] 1 (by decide)

open SmallVector in
/-- C7: when `append` finds the container full (`length == capacity`) it
grows capacity to exactly `max(2 * current_capacity, 1)`; `reserve`
grows capacity to exactly the requested minimum (not doubled) and is a
no-op when the capacity is already sufficient; starting from capacity
`N = 4`, the 5th append grows the capacity to 8 and appends up to the
9th grow it to 16. -/
theorem C7_growth_policy (α : Type) (N : Nat) (v : SmallVector α N)
    (mc : Nat) :
    (v.m_capacity ≤ v.m_size →
      v.ensure_space_for_one.m_capacity = max (v.m_capacity * 2) 1) ∧
    (v.m_size < v.m_capacity → v.ensure_space_for_one = v) ∧
    (mc ≤ v.m_capacity → v.reserve mc = v) ∧
    (v.m_capacity < mc → (v.reserve mc).m_capacity = mc) ∧
    ((mkSmallVector Nat 4).appendAll [1, 2, 3, 4]).m_capacity = 4 ∧
    ((mkSmallVector Nat 4).appendAll [1, 2, 3, 4, 5]).m_capacity = 8 ∧
    ((mkSmallVector Nat 4).appendAll [1, 2, 3, 4, 5, 6, 7, 8]).m_capacity
      = 8 ∧
    ((mkSmallVector Nat 4).appendAll [1, 2, 3, 4, 5, 6, 7, 8, 9]).m_capacity
      = 16 := by
  refine ⟨fun h => ensure_full_capacity v h, fun h => ensure_of_lt v h,
    fun h => grow_of_le v mc h, fun h => grow_capacity_of_gt v mc h,
    ?_, ?_, ?_, ?_⟩ <;> decide

/-- Witness for C7, discharging each hypothesis at a concrete input. -/
theorem C7_growth_policy_witness :
    ((⟨Mode.small, [1, 2, 3, 4], 4, 4⟩ :
        SmallVector Nat 4).ensure_space_for_one.m_capacity = max (4 * 2) 1) ∧
    ((⟨Mode.small, [1], 1, 4⟩ :
        SmallVector Nat 4).ensure_space_for_one = ⟨Mode.small, [1], 1, 4⟩) ∧
    ((⟨Mode.small, [1], 1, 4⟩ : SmallVector Nat 4).reserve 3 =
        ⟨Mode.small, [1], 1, 4⟩) ∧
    ((⟨Mode.small, [1], 1, 4⟩ : SmallVector Nat 4).reserve 9).m_capacity = 9 :=
  ⟨(C7_growth_policy Nat 4 ⟨Mode.small, [1, 2, 3, 4], 4, 4⟩ 0).1 (by decide),
    (C7_growth_policy Nat 4 ⟨Mode.small, [1], 1, 4⟩ 0).2.1 (by decide),
    (C7_growth_policy Nat 4 ⟨Mode.small, [1], 1, 4⟩ 3).2.2.1 (by decide),
    (C7_growth_policy Nat 4 ⟨Mode.small, [1], 1, 4⟩ 9).2.2.2.1 (by decide)⟩

open SmallVector in
/-- C6: a container constructed with length at most `N` (via the sized
constructor, the initializer-list constructor, or a sequence of appends
on a default-constructed container) keeps its storage at the inline
buffer (no heap allocation); appending more than `N` elements migrates
the storage to heap mode; and `remove_last` never changes the storage
mode, so a heap-mode container stays heap-mode when its length drops
back below `N`. -/
theorem C6_inline_heap_migration (α : Type) [Inhabited α] (N k : Nat)
    (values xs ys : List α) (v w : SmallVector α N) :
    (k ≤ N → (mkSized α N k).mode = Mode.small) ∧
    (values.length ≤ N → (mkFromList α N values).mode = Mode.small) ∧
    (xs.length ≤ N → ((mkSmallVector α N).appendAll xs).mode = Mode.small) ∧
    (N < ys.length → ((mkSmallVector α N).appendAll ys).mode = Mode.heap) ∧
    (v.remove_last = Res.ok w → w.mode = v.mode) := by
  have hbase : ∀ zs : List α, zs.length ≤ N →
      ((mkSmallVector α N).appendAll zs).mode = Mode.small := by
    intro zs hzs
    rw [appendAll_mode_of_le]
    · rfl
    · show 0 + zs.length ≤ N
      omega
  refine ⟨?_, ?_, hbase xs, ?_, ?_⟩
  · intro hk
    show (((mkSmallVector α N).grow k).appendAll _).mode = Mode.small
    rw [grow_of_le (mkSmallVector α N) k hk]
    exact hbase _ (by simpa using hk)
  · intro hv
    show (((mkSmallVector α N).grow _).appendAll _).mode = Mode.small
    rw [grow_of_le (mkSmallVector α N) _ hv]
    exact hbase _ hv
  · intro hys
    have hsplit := (List.take_append_drop N ys).symm
    rw [hsplit, appendAll_append]
    have hlen : (ys.take N).length = N := by
      rw [List.length_take]
      omega
    obtain ⟨z, rest, hzr⟩ : ∃ z rest, ys.drop N = z :: rest := by
      cases hd : ys.drop N with
      | nil =>
          have := List.length_drop N ys
          rw [hd] at this
          simp at this
          omega
      | cons z rest => exact ⟨z, rest, rfl⟩
    rw [hzr, appendAll_cons]
    apply appendAll_mode_heap
    apply append_mode_full
    have hsz : ((mkSmallVector α N).appendAll (ys.take N)).m_size = N := by
      rw [appendAll_m_size]
      show 0 + (ys.take N).length = N
      omega
    have hcap : ((mkSmallVector α N).appendAll (ys.take N)).m_capacity = N := by
      rw [appendAll_capacity_of_le]
      · rfl
      · show 0 + (ys.take N).length ≤ N
        omega
    rw [hsz, hcap]
  · intro hok
    unfold SmallVector.remove_last at hok
    split at hok
    · exact absurd hok (by simp)
    · cases hok
      rfl

open SmallVector in
/-- Witness for C6, discharging each hypothesis at a concrete input. -/
theorem C6_inline_heap_migration_witness :
    (mkSized Nat 4 3).mode = Mode.small ∧
    (mkFromList Nat 4 [7, 8]).mode = Mode.small ∧
    ((mkSmallVector Nat 4).appendAll [1, 2]).mode = Mode.small ∧
    ((mkSmallVector Nat 4).appendAll [1, 2, 3, 4, 5]).mode = Mode.heap ∧
    ((⟨Mode.heap, [1, 2], 2, 8⟩ : SmallVector Nat 4).remove_last =
        Res.ok ⟨Mode.heap, [1], 1, 8⟩ →
      (⟨Mode.heap, [1], 1, 8⟩ : SmallVector Nat 4).mode =
        (⟨Mode.heap, [1, 2], 2, 8⟩ : SmallVector Nat 4).mode) :=
  have h := C6_inline_heap_migration Nat 4 3 [7, 8] [1, 2] [1, 2, 3, 4, 5]
    ⟨Mode.heap, [1, 2], 2, 8⟩ ⟨Mode.heap, [1], 1, 8⟩
  ⟨h.1 (by decide), h.2.1 (by decide), h.2.2.1 (by decide),
    h.2.2.2.1 (by decide), h.2.2.2.2⟩

namespace SmallVector

variable {α : Type} {N : Nat}

theorem remove_and_reorder_ok (v : SmallVector α N) (idx : Nat)
    (h : idx < v.m_size) :
    v.remove_and_reorder idx = Res.ok { v with
      elems := (if idx < v.m_size - 1 then
          match v.elems.getLast? with
          | some last => v.elems.set idx last
          | none => v.elems
        else v.elems).dropLast,
      m_size := v.m_size - 1 } := by
  unfold remove_and_reorder
  rw [if_pos h]

theorem dropLast_getElem?_of_lt (xs : List α) (j : Nat)
    (h : j < xs.length - 1) : xs.dropLast[j]? = xs[j]? := by
  rw [List.dropLast_eq_take, List.getElem?_take]
  simp [h]

end SmallVector

open SmallVector in
/-- C8: for `index` in `[0, length)`, `remove_and_reorder(index)` moves
the last live element into position `index` when `index` is not the last
slot, destructs the original last slot, and decrements the length (the
other remaining elements keep their positions); on `[x0, x1, x2, x3]`
with index 1 it yields `[x0, x3, x2]` with length 3; an out-of-range
index is a fatal assertion. -/
theorem C8_remove_and_reorder (α : Type) (N : Nat) (v : SmallVector α N)
    (idx : Nat) :
    (v.WF → idx < v.m_size →
      ∃ w, v.remove_and_reorder idx = Res.ok w ∧
        w.m_size = v.m_size - 1 ∧ w.elems.length = v.m_size - 1 ∧
        w.m_capacity = v.m_capacity ∧
        (idx < v.m_size - 1 → w.elems[idx]? = v.elems[v.m_size - 1]?) ∧
        (∀ j, j < v.m_size - 1 → j ≠ idx → w.elems[j]? = v.elems[j]?)) ∧
    (v.m_size ≤ idx → v.remove_and_reorder idx = Res.assertFail) ∧
    ((⟨Mode.small, [10, 11, 12, 13], 4, 4⟩ :
        SmallVector Nat 4).remove_and_reorder 1 =
      Res.ok ⟨Mode.small, [10, 13, 12], 3, 4⟩) := by
  refine ⟨?_, ?_, by decide⟩
  · intro hwf hidx
    obtain ⟨hmode, hlen, hN, hcap⟩ := hwf
    have hne : v.elems ≠ [] := by
      intro hnil
      rw [hnil] at hlen
      simp at hlen
      omega
    by_cases hlt : idx < v.m_size - 1
    · rw [remove_and_reorder_ok v idx hidx, if_pos hlt,
        List.getLast?_eq_getLast _ hne]
      refine ⟨_, rfl, rfl, ?_, rfl, ?_, ?_⟩
      · show ((v.elems.set idx (v.elems.getLast hne)).dropLast).length
            = v.m_size - 1
        rw [List.length_dropLast, List.length_set]
        omega
      · intro _
        show ((v.elems.set idx (v.elems.getLast hne)).dropLast)[idx]?
            = v.elems[v.m_size - 1]?
        rw [dropLast_getElem?_of_lt _ _ (by rw [List.length_set]; omega)]
        rw [List.getElem?_set_eq_of_lt _ (by omega)]
        rw [hlen, ← List.getLast?_eq_getElem?,
          List.getLast?_eq_getLast _ hne]
      · intro j hj hjne
        show ((v.elems.set idx (v.elems.getLast hne)).dropLast)[j]?
            = v.elems[j]?
        rw [dropLast_getElem?_of_lt _ _ (by rw [List.length_set]; omega)]
        rw [List.getElem?_set_ne (by omega)]
    · rw [remove_and_reorder_ok v idx hidx, if_neg hlt]
      refine ⟨_, rfl, rfl, ?_, rfl, ?_, ?_⟩
      · show (v.elems.dropLast).length = v.m_size - 1
        rw [List.length_dropLast]
        omega
      · intro hcon
        omega
      · intro j hj hjne
        show (v.elems.dropLast)[j]? = v.elems[j]?
        exact dropLast_getElem?_of_lt _ _ (by omega)
  · intro h
    unfold SmallVector.remove_and_reorder
    rw [if_neg (by omega)]

/-- Witness for C8 at a concrete input, discharging the well-formedness
and range hypotheses. -/
theorem C8_remove_and_reorder_witness :
    ((⟨Mode.small, [10, 11, 12, 13], 4, 4⟩ :
        SmallVector Nat 4).remove_and_reorder 7 = Res.assertFail) ∧
    (∃ w, (⟨Mode.small, [10, 11, 12, 13], 4, 4⟩ :
        SmallVector Nat 4).remove_and_reorder 1 = Res.ok w ∧
      w.m_size = 3 ∧ w.elems.length = 3 ∧ w.m_capacity = 4) :=
  ⟨(C8_remove_and_reorder Nat 4 ⟨Mode.small, [10, 11, 12, 13], 4, 4⟩ 7).2.1
      (by decide),
    match (C8_remove_and_reorder Nat 4
        ⟨Mode.small, [10, 11, 12, 13], 4, 4⟩ 1).1 (by decide) (by decide) with
    | ⟨w, h1, h2, h3, h4, _, _⟩ => ⟨w, h1, h2, h3, h4⟩⟩

open SmallVector in
/-- C2 counterexample: the claim says the moved-from container is left
empty (size 0).  In the source, `steal_from_other` ends with
`other.m_elements = nullptr;` but never resets `other.m_size`, so after
moving from a one-element container its `size()` still returns 1. -/
theorem C2_move_counterexample :
    (steal_from_other
      (⟨Mode.small, [5], 1, 4⟩ : SmallVector Nat 4)).2.size ≠ 0 := by
  decide

open SmallVector in
/-- C2 (amended): move-construction from an inline-mode container
move-constructs each live element into the target's own inline storage;
from a heap-mode container it adopts the heap pointer with no per-element
moves, and the target's capacity equals the source's old capacity.  In
both cases the source's element pointer is nulled, which makes the source
safe to destroy (its destructor destructs nothing and frees nothing) —
but the source's `m_size` field keeps its old value, so the source is not
left empty. -/
theorem C2_move_semantics (α : Type) (N : Nat) (a : SmallVector α N)
    (h : a.WF) :
    (a.mode = Mode.small →
      (steal_from_other a).1.mode = Mode.small ∧
      (steal_from_other a).1.elems = a.elems ∧
      steal_construction_count a = a.elems.length) ∧
    (a.mode = Mode.heap →
      (steal_from_other a).1.mode = Mode.heap ∧
      (steal_from_other a).1.elems = a.elems ∧
      steal_construction_count a = 0) ∧
    (steal_from_other a).1.m_capacity = a.m_capacity ∧
    (steal_from_other a).1.m_size = a.m_size ∧
    (steal_from_other a).2.mode = Mode.nulled ∧
    (steal_from_other a).2.m_size = a.m_size ∧
    dtor_dest_count (steal_from_other a).2 = 0 ∧
    dtor_frees_heap (steal_from_other a).2 = false := by
  obtain ⟨hmode, hlen, _, _⟩ := h
  refine ⟨fun hs => ?_, fun hh => ?_, rfl, rfl, rfl, rfl, ?_, ?_⟩
  · exact ⟨by simp [steal_from_other, hs], rfl,
      by simp [steal_construction_count, hs, hlen]⟩
  · exact ⟨by simp [steal_from_other, hh], rfl,
      by simp [steal_construction_count, hh]⟩
  · simp [dtor_dest_count, steal_from_other]
  · simp [dtor_frees_heap, steal_from_other]

open SmallVector in
/-- Witness for C2 (amended) at a concrete heap-mode input. -/
theorem C2_move_semantics_witness :
    (steal_from_other
        (⟨Mode.heap, [1, 2], 2, 16⟩ : SmallVector Nat 4)).1.m_capacity = 16 ∧
    steal_construction_count
      (⟨Mode.heap, [1, 2], 2, 16⟩ : SmallVector Nat 4) = 0 ∧
    (steal_from_other
        (⟨Mode.heap, [1, 2], 2, 16⟩ : SmallVector Nat 4)).2.m_size = 2 :=
  have h := C2_move_semantics Nat 4 ⟨Mode.heap, [1, 2], 2, 16⟩ (by decide)
  ⟨h.2.2.1, (h.2.1 rfl).2.2, h.2.2.2.2.2.1⟩

open SmallVector in
/-- C3: destroying a moved-from container is indeed harmless (the
destructor's `m_elements != nullptr` guard skips both destruction and
deallocation), but using one as a re-assignment target is NOT
well-defined: `operator=` unconditionally calls
`destruct_elements_and_free_memory`, whose destruction loop runs over
`[0, m_size)` with `m_elements == nullptr` and with `m_size` still
holding its pre-move value — a null-pointer dereference.  Evaluated here
at the failing input: a container that held one element, was moved from,
and is then assigned to. -/
theorem C3_moved_from_reuse :
    dtor_dest_count (steal_from_other
      (⟨Mode.small, [5], 1, 4⟩ : SmallVector Nat 4)).2 = 0 ∧
    dtor_frees_heap (steal_from_other
      (⟨Mode.small, [5], 1, 4⟩ : SmallVector Nat 4)).2 = false ∧
    copy_assign
        (steal_from_other (⟨Mode.small, [5], 1, 4⟩ : SmallVector Nat 4)).2
        (mkSmallVector Nat 4) =
      Res.ub (steal_from_other
        (⟨Mode.small, [5], 1, 4⟩ : SmallVector Nat 4)).2 := by
  decide

open SmallVector in
/-- C9: element construction/destruction accounting fails across an
inline-mode move.  Trace: default-construct `a`; `a.append(5)` (one
construction, no growth); move-construct `b` from `a`
(`steal_from_other` move-constructs `a`'s one element into `b`'s inline
buffer — a second construction — and destructs nothing); destroy `b`
(one destruction); destroy `a` (its pointer is null, so zero
destructions).  Total: 2 constructions but only 1 destruction — the
moved-from element is never destructed. -/
theorem C9_lifetime_accounting :
    append_construction_count (mkSmallVector Nat 4) = 1 ∧
    append_destruction_count (mkSmallVector Nat 4) = 0 ∧
    steal_construction_count ((mkSmallVector Nat 4).append 5) = 1 ∧
    steal_destruction_count ((mkSmallVector Nat 4).append 5) = 0 ∧
    dtor_dest_count
      (steal_from_other ((mkSmallVector Nat 4).append 5)).1 = 1 ∧
    dtor_dest_count
      (steal_from_other ((mkSmallVector Nat 4).append 5)).2 = 0 ∧
    append_construction_count (mkSmallVector Nat 4) +
        steal_construction_count ((mkSmallVector Nat 4).append 5) ≠
      append_destruction_count (mkSmallVector Nat 4) +
        steal_destruction_count ((mkSmallVector Nat 4).append 5) +
        dtor_dest_count
          (steal_from_other ((mkSmallVector Nat 4).append 5)).1 +
        dtor_dest_count
          (steal_from_other ((mkSmallVector Nat 4).append 5)).2 := by
  decide

open SmallVector in
/-- C10: move assignment has no self-aliasing guard, while copy
assignment returns immediately on `this == &other`.  For any well-formed
container, `a = std::move(a)` first destructs all of `a`'s live elements
(the destruction loop covers all `m_size` of them) and frees its heap
storage, then steals from the already-torn-down storage, leaving `a` in
the nulled moved-from state (element pointer null, `m_size` and
`m_capacity` numerically unchanged) — not unchanged as self-copy
assignment would. -/
theorem C10_self_move_assign (α : Type) (N : Nat) (v : SmallVector α N)
    (h : v.WF) :
    copy_assign_self v = v ∧
    move_assign_self v = Res.ok ⟨Mode.nulled, [], v.m_size, v.m_capacity⟩ ∧
    move_assign_self v ≠ Res.ok v ∧
    destruct_free_dest_count v = v.elems.length := by
  have h2 : move_assign_self v =
      Res.ok ⟨Mode.nulled, [], v.m_size, v.m_capacity⟩ := by
    unfold move_assign_self destruct_elements_and_free_memory
    rw [if_neg (fun hc => h.1 hc.1)]
  refine ⟨rfl, h2, ?_, ?_⟩
  · rw [h2]
    intro heq
    have hfields := Res.ok.inj heq
    exact h.1 (congrArg SmallVector.mode hfields).symm
  · show v.m_size = v.elems.length
    exact h.2.1

open SmallVector in
/-- Witness for C10 at a concrete heap-mode input. -/
theorem C10_self_move_assign_witness :
    move_assign_self (⟨Mode.heap, [1, 2], 2, 8⟩ : SmallVector Nat 4) =
      Res.ok ⟨Mode.nulled, [], 2, 8⟩ ∧
    copy_assign_self (⟨Mode.heap, [1, 2], 2, 8⟩ : SmallVector Nat 4) =
      ⟨Mode.heap, [1, 2], 2, 8⟩ :=
  have h := C10_self_move_assign Nat 4 ⟨Mode.heap, [1, 2], 2, 8⟩ (by decide)
  ⟨h.2.1, h.1⟩

open SmallVector in
/-- C4 counterexample: the claim says allocation failure during growth is
a fatal assertion and leaves the container in its pre-call state.  In the
source, `grow` sets `m_capacity = min_capacity` BEFORE calling
`std::malloc` and never checks the returned pointer: growing a full
4-element container to capacity 8 with a failing allocation raises no
assertion — execution continues into undefined behaviour — and at that
point `m_capacity` already holds 8, not the pre-call 4. -/
theorem C4_alloc_failure_counterexample :
    grow_checked false
        (⟨Mode.small, [1, 2, 3, 4], 4, 4⟩ : SmallVector Nat 4) 8 =
      Res.ub ⟨Mode.small, [1, 2, 3, 4], 4, 8⟩ ∧
    grow_checked false
        (⟨Mode.small, [1, 2, 3, 4], 4, 4⟩ : SmallVector Nat 4) 8 ≠
      Res.assertFail ∧
    (⟨Mode.small, [1, 2, 3, 4], 4, 8⟩ : SmallVector Nat 4).m_capacity ≠ 4 := by
  decide

open SmallVector in
/-- C4 (amended): the code does not detect allocation failure at all.  On
any actual growth (requested capacity above the current one) of a
non-empty container whose allocation fails, no assertion is raised —
the unchecked null pointer is dereferenced (undefined behaviour) — and
the capacity field has already been overwritten with the new value, so
the container is not in its pre-call state.  When the allocation
succeeds, `grow_checked` agrees with the pure `grow`. -/
theorem C4_alloc_failure_amended (α : Type) (N : Nat) (v : SmallVector α N)
    (mc : Nat) (h1 : v.m_capacity < mc) (h2 : v.m_size ≠ 0) :
    grow_checked false v mc = Res.ub { v with m_capacity := mc } ∧
    grow_checked false v mc ≠ Res.assertFail ∧
    mc ≠ v.m_capacity ∧
    grow_checked true v mc = Res.ok (v.grow mc) := by
  have hub : grow_checked false v mc = Res.ub { v with m_capacity := mc } := by
    unfold grow_checked
    rw [if_neg (by omega)]
    simp only [Bool.false_eq_true, if_false]
    rw [if_neg h2]
  refine ⟨hub, ?_, by omega, ?_⟩
  · rw [hub]
    intro hc
    cases hc
  · unfold grow_checked grow
    by_cases hc : mc ≤ v.m_capacity
    · rw [if_pos hc, if_pos hc]
    · rw [if_neg hc, if_neg hc]
      rfl

open SmallVector in
/-- Witness for C4 (amended) at a concrete input. -/
theorem C4_alloc_failure_amended_witness :
    grow_checked false
        (⟨Mode.small, [9], 1, 4⟩ : SmallVector Nat 4) 5 =
      Res.ub ⟨Mode.small, [9], 1, 5⟩ ∧
    grow_checked false
        (⟨Mode.small, [9], 1, 4⟩ : SmallVector Nat 4) 5 ≠
      Res.assertFail :=
  have h := C4_alloc_failure_amended Nat 4 ⟨Mode.small, [9], 1, 4⟩ 5
    (by decide) (by decide)
  ⟨h.1, h.2.1⟩

namespace SmallVector

variable {α : Type} {N : Nat}

theorem Inv_grow (v : SmallVector α N) (mc : Nat) (h : v.Inv) :
    (v.grow mc).Inv := by
  obtain ⟨h1, h2⟩ := h
  exact ⟨Nat.le_trans h1 (grow_capacity_le v mc),
    by rw [grow_m_size]; exact Nat.le_trans h2 (grow_capacity_le v mc)⟩

theorem Inv_append (v : SmallVector α N) (x : α) (h : v.Inv) :
    (v.append x).Inv := by
  obtain ⟨h1, h2⟩ := h
  by_cases hc : v.m_capacity ≤ v.m_size
  · refine ⟨?_, ?_⟩
    · show N ≤ v.ensure_space_for_one.m_capacity
      rw [ensure_full_capacity v hc]
      omega
    · show v.ensure_space_for_one.m_size + 1 ≤
        v.ensure_space_for_one.m_capacity
      rw [ensure_full_capacity v hc, ensure_m_size]
      omega
  · refine ⟨?_, ?_⟩
    · show N ≤ v.ensure_space_for_one.m_capacity
      rw [ensure_of_lt v (by omega)]
      omega
    · show v.ensure_space_for_one.m_size + 1 ≤
        v.ensure_space_for_one.m_capacity
      rw [ensure_of_lt v (by omega)]
      omega

theorem Inv_appendAll (v : SmallVector α N) (xs : List α) (h : v.Inv) :
    (v.appendAll xs).Inv := by
  induction xs generalizing v with
  | nil => exact h
  | cons x xs ih => exact ih (v.append x) (Inv_append v x h)

theorem remove_last_ok_fields (v u : SmallVector α N)
    (h : v.remove_last = Res.ok u) :
    u.mode = v.mode ∧ u.m_size = v.m_size - 1 ∧
      u.m_capacity = v.m_capacity := by
  unfold remove_last at h
  split at h
  · exact absurd h (by simp)
  · cases h
    exact ⟨rfl, rfl, rfl⟩

theorem remove_and_reorder_ok_fields (v u : SmallVector α N) (idx : Nat)
    (h : v.remove_and_reorder idx = Res.ok u) :
    u.mode = v.mode ∧ u.m_size = v.m_size - 1 ∧
      u.m_capacity = v.m_capacity := by
  unfold remove_and_reorder at h
  split at h
  · cases h
    exact ⟨rfl, rfl, rfl⟩
  · exact absurd h (by simp)

theorem copy_assign_ok (v w u : SmallVector α N)
    (h : copy_assign v w = Res.ok u) : u = copy_from_other w := by
  unfold copy_assign at h
  split at h
  · cases h
    rfl
  · exact absurd h (by simp)
  · exact absurd h (by simp)

end SmallVector

open SmallVector in
/-- C5 counterexample: the claim includes assignment among the operations
across which capacity never decreases.  A container grown to capacity 8
and then copy-assigned from a default-constructed container (capacity 4)
ends with capacity 4: `copy_from_other` overwrites `m_capacity` with the
source's capacity. -/
theorem C5_assignment_capacity_counterexample :
    ((mkSmallVector Nat 4).appendAll [1, 2, 3, 4, 5]).m_capacity = 8 ∧
    copy_assign ((mkSmallVector Nat 4).appendAll [1, 2, 3, 4, 5])
        (mkSmallVector Nat 4) =
      Res.ok ⟨Mode.small, [], 0, 4⟩ := by
  decide

open SmallVector in
/-- C5 (amended): capacity never decreases across construction, reserve,
append, extend, remove_last, remove_and_reorder and fill, and the
invariant `capacity >= max(N, length)` is established by construction
and preserved by every operation (for assignment and copy/move
construction it is inherited from the source operand); but copy or move
assignment replaces the capacity with the source's capacity, which may
be smaller, so capacity can decrease across assignment. -/
theorem C5_capacity_invariant (α : Type) (N : Nat)
    (v w u : SmallVector α N) (x : α) (xs : List α) (mc idx : Nat) :
    v.m_capacity ≤ (v.reserve mc).m_capacity ∧
    v.m_capacity ≤ (v.append x).m_capacity ∧
    v.m_capacity ≤ (v.appendAll xs).m_capacity ∧
    v.m_capacity ≤ (v.extend w).m_capacity ∧
    (v.fill x).m_capacity = v.m_capacity ∧
    (v.remove_last = Res.ok u → u.m_capacity = v.m_capacity) ∧
    (v.remove_and_reorder idx = Res.ok u → u.m_capacity = v.m_capacity) ∧
    (mkSmallVector α N).Inv ∧
    (v.Inv → (v.reserve mc).Inv) ∧
    (v.Inv → (v.append x).Inv) ∧
    (v.Inv → (v.appendAll xs).Inv) ∧
    (v.Inv → (v.extend w).Inv) ∧
    (v.Inv → (v.fill x).Inv) ∧
    (v.Inv → v.remove_last = Res.ok u → u.Inv) ∧
    (v.Inv → v.remove_and_reorder idx = Res.ok u → u.Inv) ∧
    (w.Inv → (copy_from_other w).Inv) ∧
    (w.Inv → copy_assign v w = Res.ok u → u.Inv) ∧
    (w.Inv → (steal_from_other w).1.Inv ∧ (steal_from_other w).2.Inv) := by
  refine ⟨grow_capacity_le v mc, append_capacity_le v x,
    appendAll_capacity_le v xs, appendAll_capacity_le v w.elems,
    rfl, ?_, ?_, ⟨Nat.le_refl N, Nat.zero_le N⟩,
    fun h => Inv_grow v mc h, fun h => Inv_append v x h,
    fun h => Inv_appendAll v xs h, fun h => Inv_appendAll v w.elems h,
    fun h => h, ?_, ?_, fun h => h, ?_, fun h => ⟨h, h⟩⟩
  · exact fun h => (remove_last_ok_fields v u h).2.2
  · exact fun h => (remove_and_reorder_ok_fields v u idx h).2.2
  · intro hInv hok
    obtain ⟨hi1, hi2⟩ := hInv
    obtain ⟨hm, hs, hc⟩ := remove_last_ok_fields v u hok
    exact ⟨by omega, by omega⟩
  · intro hInv hok
    obtain ⟨hi1, hi2⟩ := hInv
    obtain ⟨hm, hs, hc⟩ := remove_and_reorder_ok_fields v u idx hok
    exact ⟨by omega, by omega⟩
  · intro hInv hok
    rw [copy_assign_ok v w u hok]
    exact hInv

/-- Witness for C5 (amended) at a concrete input, discharging the
invariant and success hypotheses. -/
theorem C5_capacity_invariant_witness :
    ((⟨Mode.heap, [1, 2], 2, 8⟩ : SmallVector Nat 4).append 7).Inv ∧
    ((⟨Mode.heap, [1, 2], 2, 8⟩ : SmallVector Nat 4).remove_last =
        Res.ok ⟨Mode.heap, [1], 1, 8⟩ →
      (⟨Mode.heap, [1], 1, 8⟩ : SmallVector Nat 4).Inv) :=
  have h := C5_capacity_invariant Nat 4 ⟨Mode.heap, [1, 2], 2, 8⟩
    (mkSmallVector Nat 4) ⟨Mode.heap, [1], 1, 8⟩ 7 [] 0 0
  ⟨h.2.2.2.2.2.2.2.2.2.1 (by decide),
    h.2.2.2.2.2.2.2.2.2.2.2.2.2.1 (by decide)⟩

end BLI
